import Mathlib

/-!
Verification development for the clickup-sync-node repository.

The JavaScript source (src/services/sync.js, src/services/clickup.js, the
database module and the task-type sync module) is shallowly embedded below.
JavaScript runtime values are modelled by the inductive type `JsValue`;
machine time is modelled by an explicit `Nat` tick passed to every operation
that reads the clock; the PostgreSQL store is modelled by association lists
keyed by primary key.  Each claim of the specification is then stated and
settled as a theorem about these definitions.
-/

/-- A JavaScript runtime value.  Numbers are restricted to integers (every
numeric value appearing in the synced payloads and in the claims is
integral).  `undef` is the JavaScript value `undefined`, distinct from
`null`.  `nan` is the number `NaN`.  A `Date` object is represented by
`jsdate v` where `v` is the value it was constructed from; no claim ever
inspects a `Date`'s internals. -/
inductive JsValue where
  | null : JsValue
  | undef : JsValue
  | nan : JsValue
  | bool : Bool → JsValue
  | num : Int → JsValue
  | str : String → JsValue
  | jsdate : JsValue → JsValue
  | arr : List JsValue → JsValue
  | obj : List (String × JsValue) → JsValue

/-- JavaScript truthiness: `null`, `undefined`, `NaN`, `false`, `0` and the
empty string are falsy; every other value (objects, arrays, dates included)
is truthy. -/
def truthy : JsValue → Bool
  | .null => false
  | .undef => false
  | .nan => false
  | .bool b => b
  | .num n => n != 0
  | .str s => s ≠ ""
  | .jsdate _ => true
  | .arr _ => true
  | .obj _ => true

mutual
/-- JavaScript `String(v)` / ToString coercion, restricted to the values of
`JsValue`.  Objects render as `[object Object]`; array elements are joined
with commas, `null` and `undefined` elements rendering empty.  A `Date`'s
string form is represented opaquely from its source value (no claim
evaluates it). -/
def jsToString : JsValue → String
  | .null => "null"
  | .undef => "undefined"
  | .nan => "NaN"
  | .bool b => if b then ("true") else ("false")
  | .num n => toString n
  | .str s => s
  | .jsdate v => ("Date:") ++ jsToString v
  | .arr xs => jsToStringList xs
  | .obj _ => "[object Object]"

/-- Comma-joined rendering of array elements (`Array.prototype.toString`). -/
def jsToStringList : List JsValue → String
  | [] => ""
  | [x] => jsToStringElem x
  | x :: xs => jsToStringElem x ++ (",") ++ jsToStringList xs

/-- One array element: `null` and `undefined` render as the empty string. -/
def jsToStringElem : JsValue → String
  | .null => ""
  | .undef => ""
  | v => jsToString v
end

mutual
/-- The value transformation performed by `JSON.stringify` before
serialization: `NaN` becomes `null`, object entries whose value is
`undefined` are dropped, `undefined` array elements become `null`.  `Date`
values never occur in the documents this code writes (field values are
staged before any transform runs); the case is mapped through its source
value.  JSONB's key reordering is omitted: every claim compares documents
produced by the same writer, for which reordering is equality-preserving. -/
def toJson : JsValue → JsValue
  | .null => .null
  | .undef => .null
  | .nan => .null
  | .bool b => .bool b
  | .num n => .num n
  | .str s => .str s
  | .jsdate v => .str (("Date:") ++ jsToString v)
  | .arr xs => .arr (toJsonList xs)
  | .obj fs => .obj (toJsonFields fs)

def toJsonList : List JsValue → List JsValue
  | [] => []
  | x :: xs => toJson x :: toJsonList xs

def toJsonFields : List (String × JsValue) → List (String × JsValue)
  | [] => []
  | (k, v) :: fs =>
    match v with
    | .undef => toJsonFields fs
    | v => (k, toJson v) :: toJsonFields fs
end

/-! ## Field catalog / name mapper (src/services/sync.js, `mapFieldName`,
`normalizeFieldValue`, and the clean-name computation at sync.js:150) -/

/-- The code points removed from a raw field name by the regex at
sync.js:150: the seven alternated ranges of pictographic and symbolic
characters. -/
def isStrippedSymbol (c : Char) : Bool :=
  let n := c.toNat
  (0x1F300 ≤ n && n ≤ 0x1F9FF) || (0x1F600 ≤ n && n ≤ 0x1F64F) ||
  (0x1F680 ≤ n && n ≤ 0x1F6FF) || (0x2600 ≤ n && n ≤ 0x26FF) ||
  (0x2700 ≤ n && n ≤ 0x27BF) || (0x1F900 ≤ n && n ≤ 0x1F9FF) ||
  (0x1F1E0 ≤ n && n ≤ 0x1F1FF)

/-- The WhiteSpace and LineTerminator set trimmed by JavaScript
`String.prototype.trim`. -/
def isJsSpace (c : Char) : Bool :=
  let n := c.toNat
  n == 0x9 || n == 0xA || n == 0xB || n == 0xC || n == 0xD || n == 0x20 ||
  n == 0xA0 || n == 0x1680 || (0x2000 ≤ n && n ≤ 0x200A) || n == 0x2028 ||
  n == 0x2029 || n == 0x202F || n == 0x205F || n == 0x3000 || n == 0xFEFF

/-- JavaScript `s.trim()`. -/
def jsTrim (s : String) : String :=
  String.mk (((s.toList.dropWhile isJsSpace).reverse.dropWhile isJsSpace).reverse)

/-- The clean name of a raw field name: the symbol ranges stripped, then
trimmed (sync.js:150). -/
def cleanNameOf (raw : String) : String :=
  jsTrim (String.mk (raw.toList.filter (fun c => !(isStrippedSymbol c))))

/-- The declared semantic type of a mapped field (the `type` entries of the
static table in `mapFieldName`). -/
inductive TType where
  | text
  | timestamp
  | decimal
  | integer
deriving DecidableEq

/-- One entry of the static mapping table: an optional dedicated column name
and the declared type (the transform is determined by the type: every
`text` entry uses `String(value)`, every `timestamp` entry uses
`value ? new Date(value) : null`, every `decimal` entry passes numbers
through, and the one `integer` entry uses `parseInt(value, 10)`). -/
structure FieldMapEntry where
  column : Option String
  ttype : TType
deriving DecidableEq

/-- The static `fieldMap` table of `mapFieldName` (sync.js:233-308). -/
def fieldMap (cleanName : String) : Option FieldMapEntry :=
  match cleanName with
  | "Status Updates" => some ⟨some ("status_updates"), .text⟩
  | "Client" => some ⟨some ("client"), .text⟩
  | "Start Job!" => some ⟨some ("start_job"), .timestamp⟩
  | "Est. Revenue" => some ⟨some ("est_revenue"), .decimal⟩
  | "Est. Cost" => some ⟨some ("est_cost"), .decimal⟩
  | "Reason for Closed" => some ⟨some ("reason_for_closed"), .text⟩
  | "Job Name" => some ⟨some ("job_name"), .text⟩
  | "Milestone Date" => some ⟨some ("milestone_date"), .timestamp⟩
  | "Hours per Day" => some ⟨some ("hours_per_day"), .integer⟩
  | "Expected Revenue" => some ⟨none, .decimal⟩
  | "Current Fee" => some ⟨none, .decimal⟩
  | "Fee" => some ⟨none, .decimal⟩
  | "Time Left" => some ⟨none, .text⟩
  | "Estimated Fee" => some ⟨none, .decimal⟩
  | "Update Email" => some ⟨none, .text⟩
  | "Job Budget" => some ⟨none, .decimal⟩
  | _ => none

/-- Leading decimal digits of a character list. -/
def takeDigits : List Char → List Char
  | [] => []
  | c :: cs => if c.isDigit then c :: takeDigits cs else []

/-- Numeric value of a digit list. -/
def digitsToNat (ds : List Char) : Nat :=
  ds.foldl (fun a c => a * 10 + (c.toNat - 48)) 0

/-- JavaScript `parseInt(v, 10)`: coerce to string, skip leading
whitespace, optional sign, then the longest decimal-digit prefix; `NaN`
when no digit is consumed. -/
def parseIntJs (v : JsValue) : JsValue :=
  let cs := (jsToString v).toList.dropWhile isJsSpace
  let signed : Bool × List Char :=
    match cs with
    | '-' :: r => (true, r)
    | '+' :: r => (false, r)
    | r => (false, r)
  let ds := takeDigits signed.2
  if ds.isEmpty then .nan
  else if signed.1 then .num (-(Int.ofNat (digitsToNat ds)))
  else .num (Int.ofNat (digitsToNat ds))

/-- The value-coercion rule attached to each declared type in the table.
The `Option` result models a thrown exception (caught in
`normalizeFieldValue`); none of the table's transforms can throw on a
representable value, so the result is always `some`. -/
def transform (t : TType) (v : JsValue) : Option JsValue :=
  match t with
  | .text => some (.str (jsToString v))
  | .timestamp => some (if truthy v then .jsdate v else .null)
  | .decimal =>
    some (match v with
      | .num n => .num n
      | .nan => .nan
      | _ => .null)
  | .integer => some (parseIntJs v)

/-- One custom field of the fetched task detail.  `name = none` models a
missing/undefined name; `some ""` is falsy as well.  `type_config = .undef`
models an absent configuration. -/
structure CustomField where
  id : String
  name : Option String
  ftype : String
  type_config : JsValue
  value : JsValue

/-- The result of `mapFieldName`: the storage key (`mapping.column ||
cleanName`) and the declared type. -/
structure MappedField where
  name : String
  ttype : TType

/-- Source `mapFieldName(cleanName)` (sync.js:232-318): looks up the static table
and projects the entry to `{name: column || cleanName, type, transform}`. -/
def mapFieldName (cleanName : String) : Option MappedField :=
  match fieldMap cleanName with
  | none => none
  | some e =>
    some ⟨match e.column with
          | some c => if c = "" then cleanName else c
          | none => cleanName,
          e.ttype⟩

/-- Source `normalizeFieldValue(field, mapping)` (sync.js:220-229): null when no
mapping (or no transform) is supplied, otherwise the transform applied to
the field's value, with a thrown coercion error caught and turned into
null. -/
def normalizeFieldValue (field : CustomField) (mapping : Option MappedField) : JsValue :=
  match mapping with
  | none => .null
  | some m =>
    match transform m.ttype field.value with
    | some v => v
    | none => .null

/-! ## Task data model (clickup_task schema, getTaskDetails payload) -/

/-- A value stored in a PostgreSQL timestamp column: SQL NULL, a JavaScript
`Date` bound as a parameter, or a `CURRENT_TIMESTAMP` / current-instant
value at clock tick `t`. -/
inductive TimeStamp where
  | null : TimeStamp
  | fromJs : JsValue → TimeStamp
  | clock : Nat → TimeStamp

/-- The custom-type projection produced by `getTaskDetails`
(clickup.js:92-96): `{id, name, color}`. -/
structure CustomType where
  id : String
  name : String
  color : JsValue

/-- The normalized task detail returned by `getTaskDetails`: custom fields
defaulted to an array (a `none` element models a null entry), parent
defaulted to null, custom type projected or null. -/
structure TaskDetail where
  name : Option String
  text_content : Option String
  description : Option String
  status : JsValue
  date_created : JsValue
  date_updated : JsValue
  creator : JsValue
  custom_fields : List (Option CustomField)
  parent : Option String
  custom_type : Option CustomType

/-- A row of the `clickup_task` table, restricted to the columns this core
reads or writes.  `airbyte_raw_id` and `airbyte_extracted_at` stand for the
`_airbyte_raw_id` and `_airbyte_extracted_at` provenance columns.  The
three structured maps are stored as whole JSON documents. -/
structure TaskRow where
  airbyte_raw_id : String
  airbyte_extracted_at : TimeStamp
  name : Option String
  text_content : Option String
  description : Option String
  status : Option JsValue
  date_created : TimeStamp
  date_updated : TimeStamp
  creator : JsValue
  custom_fields : JsValue
  relationships : JsValue
  field_values : JsValue
  custom_type : JsValue
  task_type_id : Option String
  task_type_name : Option String
  updated_at : TimeStamp

/-- Binding a JavaScript value as an SQL parameter: `null` and `undefined`
become SQL NULL. -/
def sqlBind (v : JsValue) : Option JsValue :=
  match v with
  | .null => none
  | .undef => none
  | v => some v

/-- JavaScript `v === null || v === undefined`. -/
def isNullish : JsValue → Bool
  | .null => true
  | .undef => true
  | _ => false

/-- JavaScript `v === null`. -/
def isNull : JsValue → Bool
  | .null => true
  | _ => false

/-! ## The field loop of syncTaskCustomFields (sync.js:124-178) -/

/-- One staged field definition (`fieldData.customFields[cleanName]`,
sync.js:153-158). -/
structure FieldDef where
  id : String
  ftype : String
  config : JsValue
  original_name : String

/-- One staged field value (`fieldData.fieldValues[...]`, sync.js:166-171):
the normalized value, the staging instant, the source field id and the
original name. -/
structure FieldValueEntry where
  value : JsValue
  updated_at : Nat
  field_id : String
  original_name : String

/-- The relationships part of `fieldData` (sync.js:126-129). -/
structure Relationships where
  parent_id : Option String
  custom_type : Option String

/-- The `fieldData` accumulator built by the sync (sync.js:124-134). -/
structure FieldData where
  customFields : List (String × FieldDef)
  relationships : Relationships
  fieldValues : List (String × FieldValueEntry)
  name : Option String
  status : JsValue
  description : Option String

/-- Lookup in an association list by key (the first matching entry). -/
def assocLookup (l : List (String × α)) (k : String) : Option α :=
  match l with
  | [] => none
  | (a, b) :: ps => if k = a then some b else assocLookup ps k

/-- JavaScript property assignment `o[k] = v` on an object modelled as an
ordered association list: replace in place when the key is present,
append otherwise. -/
def objInsert (l : List (String × α)) (k : String) (v : α) : List (String × α) :=
  if l.any (fun p => p.1 = k) then l.map (fun p => if p.1 = k then (k, v) else p)
  else l ++ [(k, v)]

/-- Expression `taskDetails.status?.status || taskDetails.status` (sync.js:132). -/
def statusParam (s : JsValue) : JsValue :=
  match s with
  | .obj fields =>
    match assocLookup fields ("status") with
    | some v => if truthy v then v else .obj fields
    | none => .obj fields
  | s => s

/-- The initial `fieldData` object (sync.js:124-134): empty maps, the
relationships from the detail (`custom_type?.name || null`), and the
descriptive columns. -/
def initFieldData (d : TaskDetail) : FieldData :=
  { customFields := []
    relationships :=
      ⟨d.parent,
       match d.custom_type with
       | some ct => if ct.name = "" then none else some ct.name
       | none => none⟩
    fieldValues := []
    name := d.name
    status := statusParam d.status
    description := d.description }

/-- One iteration of the field loop (sync.js:144-175).  A falsy entry or a
falsy name is skipped; the field definition is recorded under the clean
name; when the value is neither null nor undefined it is normalized — the
call at sync.js:162 passes no mapping argument — and, when the normalized
value is non-null and the clean name is mapped, staged into `fieldValues`.
The staging key is the string coercion of the `mapFieldName` result object,
which JavaScript property access renders as `[object Object]`. -/
def processField (now : Nat) (fd : FieldData) (f : Option CustomField) : FieldData :=
  match f with
  | none => fd
  | some field =>
    match field.name with
    | none => fd
    | some rawName =>
      if rawName = "" then fd
      else
        let cleanName := cleanNameOf rawName
        let fd1 := { fd with
          customFields := objInsert fd.customFields cleanName
            ⟨field.id, field.ftype,
             if truthy field.type_config then field.type_config else .obj [],
             rawName⟩ }
        if isNullish field.value then fd1
        else
          let normalizedValue := normalizeFieldValue field none
          if isNull normalizedValue then fd1
          else
            match mapFieldName cleanName with
            | none => fd1
            | some _ =>
              { fd1 with
                fieldValues := objInsert fd1.fieldValues ("[object Object]")
                  ⟨normalizedValue, now, field.id, rawName⟩ }

/-- The complete `fieldData` computed by `syncTaskCustomFields` for a
detail `d` at instant `now` (sync.js:124-178). -/
def buildFieldData (now : Nat) (d : TaskDetail) : FieldData :=
  d.custom_fields.foldl (processField now) (initFieldData d)

/-! ## JSON documents persisted by the update (db.updateTaskCustomFields) -/

/-- A nullable string as a JSON value. -/
def optStrJs : Option String → JsValue
  | none => .null
  | some s => .str s

/-- A staged field definition as the JSON written into `custom_fields`. -/
def fieldDefJs (fd : FieldDef) : JsValue :=
  .obj [(("id"), .str fd.id), (("type"), .str fd.ftype),
        (("config"), fd.config), (("original_name"), .str fd.original_name)]

/-- Document `JSON.stringify(fieldData.customFields || \x7b\x7d)` written into `custom_fields`. -/
def customFieldsDoc (cf : List (String × FieldDef)) : JsValue :=
  toJson (.obj (cf.map (fun p => (p.1, fieldDefJs p.2))))

/-- Document `JSON.stringify(fieldData.relationships || \x7b\x7d)` written into `relationships`. -/
def relationshipsDoc (r : Relationships) : JsValue :=
  toJson (.obj [(("parent_id"), optStrJs r.parent_id),
                (("custom_type"), optStrJs r.custom_type)])

/-- A staged field value as JSON.  The ISO rendering of the staging instant
`new Date().toISOString()` is represented by the tick's decimal string. -/
def fieldValueEntryJs (e : FieldValueEntry) : JsValue :=
  .obj [(("value"), e.value),
        (("updated_at"), .str (("t") ++ toString e.updated_at)),
        (("field_id"), .str e.field_id),
        (("original_name"), .str e.original_name)]

/-- Document `JSON.stringify(fieldData.fieldValues || \x7b\x7d)` written into `field_values`. -/
def fieldValuesDoc (fv : List (String × FieldValueEntry)) : JsValue :=
  toJson (.obj (fv.map (fun p => (p.1, fieldValueEntryJs p.2))))

/-! ## The database (db module, taskTypeSync module) -/

/-- A row of the `task_types` table. -/
structure TaskTypeRow where
  name : String
  color : JsValue
  status : JsValue
  orderindex : JsValue
  workspace_id : String
  updated_at : Nat

/-- The storage state: the `clickup_task` table and the `task_types`
table, each an association list keyed by primary key. -/
structure DB where
  tasks : List (String × TaskRow)
  task_types : List (String × TaskTypeRow)

/-- Source `db.checkTaskExists(taskId)`: EXISTS on the primary key. -/
def checkTaskExists (db : DB) (taskId : String) : Bool :=
  (assocLookup db.tasks taskId).isSome

/-- Expression `taskDetails.x ? new Date(taskDetails.x) : null` bound to a timestamp
column (sync.js:67-68). -/
def tsParam (v : JsValue) : TimeStamp :=
  if truthy v then .fromJs v else .null

/-- JavaScript `v || \x7b\x7d`. -/
def jsOrEmptyObj (v : JsValue) : JsValue :=
  if truthy v then v else .obj []

/-- The `{id, name, color}` projection as JSON. -/
def customTypeJs (ct : CustomType) : JsValue :=
  .obj [(("id"), .str ct.id), (("name"), .str ct.name), (("color"), ct.color)]

/-- The placeholder row inserted by `syncTaskCustomFields` when the task is
absent from storage (sync.js:40-74): provenance tag `manual_` + id,
extraction time = the current instant, core fields from the detail, the
three structured maps empty documents, and the task-type link columns left
to their SQL default NULL. -/
def placeholderRow (now : Nat) (taskId : String) (d : TaskDetail) : TaskRow :=
  { airbyte_raw_id := ("manual_") ++ taskId
    airbyte_extracted_at := .clock now
    name := d.name
    text_content := d.text_content
    description := d.description
    status := sqlBind d.status
    date_created := tsParam d.date_created
    date_updated := tsParam d.date_updated
    creator := toJson (jsOrEmptyObj d.creator)
    custom_fields := .obj []
    relationships := .obj []
    field_values := .obj []
    custom_type := toJson (match d.custom_type with
                           | some ct => customTypeJs ct
                           | none => .obj [])
    task_type_id := none
    task_type_name := none
    updated_at := .clock now }

/-- The INSERT of the placeholder row. -/
def insertPlaceholder (db : DB) (taskId : String) (row : TaskRow) : DB :=
  { db with tasks := db.tasks ++ [(taskId, row)] }

/-- SQL `UPDATE ... WHERE id = k` on an association list: apply `f` to the
value of every entry whose key is `k`, keys unchanged. -/
def updateWhere (l : List (String × α)) (k : String) (f : α → α) : List (String × α) :=
  match l with
  | [] => []
  | (a, b) :: ps => (a, if a = k then f b else b) :: updateWhere ps k f

/-- An UPDATE of the rows whose primary key is `taskId`. -/
def modifyTask (db : DB) (taskId : String) (f : TaskRow → TaskRow) : DB :=
  { db with tasks := updateWhere db.tasks taskId f }

/-- SQL `COALESCE(p, old)` on a bound nullable parameter. -/
def sqlCoalesce (p : Option JsValue) (old : Option JsValue) : Option JsValue :=
  match p with
  | none => old
  | some v => some v

/-- SQL `COALESCE(p, old)` on a nullable text parameter. -/
def coalesceOpt (p : Option String) (old : Option String) : Option String :=
  match p with
  | none => old
  | some v => some v

/-- The SET clause of the UPDATE in `db.updateTaskCustomFields`
(part_002:282-296): the three maps replaced wholesale, the descriptive
columns coalesced, and `date_updated`, `_airbyte_extracted_at` and
`updated_at` all refreshed to `CURRENT_TIMESTAMP`. -/
def applyFieldUpdate (now : Nat) (fd : FieldData) (r : TaskRow) : TaskRow :=
  { r with
    custom_fields := customFieldsDoc fd.customFields
    relationships := relationshipsDoc fd.relationships
    field_values := fieldValuesDoc fd.fieldValues
    status := sqlCoalesce (sqlBind fd.status) r.status
    name := coalesceOpt fd.name r.name
    description := coalesceOpt fd.description r.description
    date_updated := .clock now
    airbyte_extracted_at := .clock now
    updated_at := .clock now }

/-- Source `db.updateTaskCustomFields(taskId, fieldData)` (part_002:269-336): when
the UPDATE matches no row the transaction is rolled back (the state is
returned unchanged) and null is returned; otherwise the updated row is
persisted and returned. -/
def updateTaskCustomFields (now : Nat) (db : DB) (taskId : String) (fd : FieldData) : DB × Option TaskRow :=
  match assocLookup db.tasks taskId with
  | none => (db, none)
  | some r => (modifyTask db taskId (applyFieldUpdate now fd), some (applyFieldUpdate now fd r))

/-! ## Task-type side sync (the taskTypeSync module, src/unnamed/part_001) -/

/-- One type definition fetched from the remote catalog. -/
structure TypeDef where
  id : String
  name : String
  color : JsValue
  status : JsValue
  orderindex : JsValue

/-- The row written for a fetched type definition (part_001:15-33), with
the `||` defaults applied: color falsy → null, status falsy → `active`,
orderindex falsy → 0. -/
def typeRowOf (now : Nat) (ws : String) (ty : TypeDef) : TaskTypeRow :=
  { name := ty.name
    color := if truthy ty.color then ty.color else .null
    status := if truthy ty.status then ty.status else .str ("active")
    orderindex := if truthy ty.orderindex then ty.orderindex else .num 0
    workspace_id := ws
    updated_at := now }

/-- Key membership in an association list. -/
def keyMem (k : String) (l : List (String × α)) : Bool :=
  l.any (fun p => p.1 = k)

/-- Statement `INSERT ... ON CONFLICT (id) DO UPDATE`: replace the row in place when
the id exists, append otherwise. -/
def upsertType (now : Nat) (ws : String) (table : List (String × TaskTypeRow)) (ty : TypeDef) : List (String × TaskTypeRow) :=
  if keyMem ty.id table then
    updateWhere table ty.id (fun _ => typeRowOf now ws ty)
  else table ++ [(ty.id, typeRowOf now ws ty)]

/-- Source `TaskTypeSync.syncTaskTypes` (part_001:6-53): upsert every fetched
type, then — only when at least one type was fetched — delete every stored
type whose id is not in the fetched set. -/
def syncTaskTypes (now : Nat) (ws : String) (table : List (String × TaskTypeRow)) (types : List TypeDef) : List (String × TaskTypeRow) :=
  let upserted := types.foldl (upsertType now ws) table
  let typeIds := types.map (fun t => t.id)
  if typeIds.length > 0 then upserted.filter (fun p => typeIds.contains p.1)
  else upserted

/-- Source `TaskTypeSync.updateTaskTypeRelationships(taskId, typeId)`
(part_001:55-78): sets the task row's type id and the denormalized type
name looked up in `task_types` at write time.  The FOREIGN KEY constraint
on `task_type_id` is not modelled; in the sync flow the catalog was
refreshed immediately before this call. -/
def updateTaskTypeRelationships (db : DB) (taskId : String) (typeId : String) : DB :=
  modifyTask db taskId (fun r =>
    { r with
      task_type_id := some typeId
      task_type_name := (assocLookup db.task_types typeId).map (fun t => t.name) })

/-- The `{success, task, error}` object returned by
`syncTaskCustomFields`. -/
structure SyncResult where
  success : Bool
  task : Option TaskRow
  error : Option String

/-- Steps 2-3 of the sync (sync.js:33-100): create the placeholder when the
row is absent. -/
def ensureTask (now : Nat) (d : TaskDetail) (db : DB) (taskId : String) : DB :=
  if checkTaskExists db taskId then db
  else insertPlaceholder db taskId (placeholderRow now taskId d)

/-- Steps 4-5 of the sync (sync.js:102-111): refresh the type catalog, then
link the task to its resolved custom type when one is present (the guard is
the truthiness of `custom_type?.id`). -/
def syncTypeStep (now : Nat) (d : TaskDetail) (types : List TypeDef) (ws : String) (db : DB) (taskId : String) : DB :=
  let db2 := { db with task_types := syncTaskTypes now ws db.task_types types }
  match d.custom_type with
  | some ct => if ct.id = "" then db2 else updateTaskTypeRelationships db2 taskId ct.id
  | none => db2

/-- Source `SyncService.syncTaskCustomFields(taskId)` (sync.js:15-217).  The
parameters model the external world: `detail` is the ClickUp response
(`none` for a falsy payload), `types` the workspace type catalog fetched
inside the type sync, `ws` the configured workspace id, `now` the clock,
and `interfere` the action of the concurrent external writer in the window
between the row verification and the persisting UPDATE (the identity when
no concurrent writer acts).  Storage exceptions are not modelled: no
statement of this flow can fail in the embedding except the zero-row
UPDATE, which the source maps to a null return rather than a throw. -/
def syncTaskCustomFields (detail : Option TaskDetail) (types : List TypeDef) (ws : String) (now : Nat) (db : DB) (taskId : String) (interfere : DB → DB) : DB × SyncResult :=
  match detail with
  | none => (db, ⟨false, none, some ("Task not found in ClickUp")⟩)
  | some d =>
    let db1 := ensureTask now d db taskId
    match assocLookup db1.tasks taskId with
    | none => (db1, ⟨false, none, some ("Failed to create/find task")⟩)
    | some _ =>
      let db3 := syncTypeStep now d types ws db1 taskId
      let fd := buildFieldData now d
      let db4 := interfere db3
      let res := updateTaskCustomFields now db4 taskId fd
      (res.1, ⟨true, res.2, none⟩)

/-! ## Change ledger (db.updateTaskField, part_002:220-246) -/

/-- Quote and minimally escape a string for JSON (backslash and quote; the
serialized values of the claims contain no control characters, for which
further escapes would apply). -/
def jsonQuote (s : String) : String :=
  ("\"") ++ String.join (s.toList.map (fun c =>
    if c = '"' then ("\\\"") else if c = '\\' then ("\\\\") else String.mk [c])) ++ ("\"")

mutual
/-- Function `JSON.stringify(v)`: `none` is the `undefined` result (for an
`undefined` argument); `NaN` serializes as null; object entries with
`undefined` values are dropped; `undefined` array elements serialize as
null.  A `Date` serializes through its opaque string form. -/
def jsonStringify : JsValue → Option String
  | .null => some ("null")
  | .undef => none
  | .nan => some ("null")
  | .bool b => some (if b then ("true") else ("false"))
  | .num n => some (toString n)
  | .str s => some (jsonQuote s)
  | .jsdate v => some (jsonQuote (("Date:") ++ jsToString v))
  | .arr xs => some (("[") ++ String.intercalate (",") (jsonElemStrs xs) ++ ("]"))
  | .obj fs => some (("\x7b") ++ String.intercalate (",") (jsonEntryStrs fs) ++ ("\x7d"))

def jsonElemStrs : List JsValue → List String
  | [] => []
  | x :: xs =>
    (match jsonStringify x with
     | some s => s
     | none => ("null")) :: jsonElemStrs xs

def jsonEntryStrs : List (String × JsValue) → List String
  | [] => []
  | (k, v) :: fs =>
    match jsonStringify v with
    | none => jsonEntryStrs fs
    | some s => (jsonQuote k ++ (":") ++ s) :: jsonEntryStrs fs
end

/-- One `field_changes` row: the old and new serialized values (SQL NULL
when the serialization is `undefined`). -/
structure FieldChange where
  task_id : String
  field_name : String
  old_value : Option String
  new_value : Option String
  changed_at : Nat

/-- The storage as seen by `updateTaskField`, which addresses columns
dynamically by name: each task row is a finite map from column name to
stored value, plus the append-only `field_changes` table. -/
structure LedgerState where
  tasks : List (String × List (String × JsValue))
  changes : List FieldChange

/-- Expression `rows[0]?.[fieldName]`: `undefined` when the row is absent or the
column is not present. -/
def currentValueOf (st : LedgerState) (taskId fieldName : String) : JsValue :=
  match assocLookup st.tasks taskId with
  | none => .undef
  | some row =>
    match assocLookup row fieldName with
    | none => .undef
    | some v => v

/-- The column UPDATE of `updateTaskField`: sets the named column and
refreshes `updated_at` on the matching row. -/
def setColumn (tasks : List (String × List (String × JsValue))) (taskId fieldName : String) (v : JsValue) (now : Nat) : List (String × List (String × JsValue)) :=
  updateWhere tasks taskId (fun row =>
    objInsert (objInsert row fieldName v) ("updated_at") (.num (Int.ofNat now)))

/-- Source `db.updateTaskField(taskId, fieldName, newValue)` (part_002:220-246):
reads the current column value, and only when
`JSON.stringify(currentValue) !== JSON.stringify(newValue)` appends one
`field_changes` record carrying both serialized values and updates the
column; otherwise it leaves the state untouched. -/
def updateTaskField (now : Nat) (st : LedgerState) (taskId fieldName : String) (newValue : JsValue) : LedgerState :=
  let currentValue := currentValueOf st taskId fieldName
  if jsonStringify currentValue ≠ jsonStringify newValue then
    { tasks := setColumn st.tasks taskId fieldName newValue now
      changes := st.changes ++
        [⟨taskId, fieldName, jsonStringify currentValue, jsonStringify newValue, now⟩] }
  else st

mutual
/-- Syntactic equality of JavaScript values as a boolean. -/
def beqJs : JsValue → JsValue → Bool
  | .null, .null => true
  | .undef, .undef => true
  | .nan, .nan => true
  | .bool a, .bool b => a == b
  | .num a, .num b => a == b
  | .str a, .str b => a == b
  | .jsdate a, .jsdate b => beqJs a b
  | .arr a, .arr b => beqJsList a b
  | .obj a, .obj b => beqJsFields a b
  | _, _ => false

def beqJsList : List JsValue → List JsValue → Bool
  | [], [] => true
  | a :: as, b :: bs => beqJs a b && beqJsList as bs
  | _, _ => false

def beqJsFields : List (String × JsValue) → List (String × JsValue) → Bool
  | [], [] => true
  | (k1, v1) :: f1, (k2, v2) :: f2 => k1 == k2 && beqJs v1 v2 && beqJsFields f1 f2
  | _, _ => false
end

/-- Lexicographic comparison of key strings by code point. -/
def keyLt (a b : List Char) : Bool :=
  match a, b with
  | [], [] => false
  | [], _ :: _ => true
  | _ :: _, [] => false
  | c :: cs, d :: ds => c.toNat < d.toNat || (c.toNat == d.toNat && keyLt cs ds)

/-- Insert an entry into a key-sorted field list. -/
def insertSorted (p : String × JsValue) : List (String × JsValue) → List (String × JsValue)
  | [] => [p]
  | q :: qs => if keyLt p.1.toList q.1.toList then p :: q :: qs else q :: insertSorted p qs

/-- Sort a field list by key. -/
def sortFields : List (String × JsValue) → List (String × JsValue)
  | [] => []
  | p :: ps => insertSorted p (sortFields ps)

mutual
/-- Canonical form of a JavaScript value: object keys sorted recursively. -/
def canonJson : JsValue → JsValue
  | .obj fs => .obj (sortFields (canonFields fs))
  | .arr xs => .arr (canonList xs)
  | v => v

def canonList : List JsValue → List JsValue
  | [] => []
  | x :: xs => canonJson x :: canonList xs

def canonFields : List (String × JsValue) → List (String × JsValue)
  | [] => []
  | (k, v) :: fs => (k, canonJson v) :: canonFields fs
end

/-- Modelled from the spec: the deep, key-order-insensitive structural
equality of §4.5 ("deep, order-insensitive for object/array values
serialized canonically") — values compared after recursively sorting
object keys.  The code itself compares `JSON.stringify` outputs, which are
key-order-sensitive; this definition exists to state that divergence. -/
def specStructEq (a b : JsValue) : Bool :=
  beqJs (canonJson a) (canonJson b)

/-! ## Retry policy (clickup.js, `retryRequest` and `getTaskDetails`) -/

/-- A request failure: an HTTP error response with its status, or any
other error (network failure, programming error) without one. -/
inductive ReqError where
  | http : Nat → ReqError
  | other : String → ReqError
deriving DecidableEq

/-- Check `error.response?.status === 502 || error.response?.status === 429`. -/
def isTransientStatus : ReqError → Bool
  | .http s => s == 502 || s == 429
  | .other _ => false

/-- The retry loop of `retryRequest` (clickup.js:29-43) from attempt index
`i`: `outcomes n` is the result of the `n`-th invocation of `fn`
(0-based).  Returns the final outcome — `.ok none` models the `undefined`
returned when the loop exits without returning or throwing, reachable only
when `retries = 0` — together with the list of back-off delays slept, in
order: after the failure of attempt `i` the loop sleeps `delay * (i + 1)`
before the next attempt. -/
def retryGo (outcomes : Nat → Except ReqError α) (retries delay i : Nat) : Except ReqError (Option α) × List Nat :=
  if _h : i < retries then
    match outcomes i with
    | .ok v => (.ok (some v), [])
    | .error e =>
      if isTransientStatus e && decide (i < retries - 1) then
        let rest := retryGo outcomes retries delay (i + 1)
        (rest.1, delay * (i + 1) :: rest.2)
      else (.error e, [])
  else (.ok none, [])
termination_by retries - i

/-- Source `retryRequest(fn, retries, delay)` (clickup.js:29-43). -/
def retryRequest (outcomes : Nat → Except ReqError α) (retries delay : Nat) : Except ReqError (Option α) × List Nat :=
  retryGo outcomes retries delay 0

/-- The retry wrapper of the detail fetch in `getTaskDetails`
(clickup.js:78-82): three attempts, base delay 2000 ms; the surrounding
catch block logs and rethrows, so any error left after the retry loop
propagates to the caller unchanged. -/
def getTaskDetailsRequest (outcomes : Nat → Except ReqError α) : Except ReqError (Option α) × List Nat :=
  retryRequest outcomes 3 2000

/-! ## Derived definitions and concrete sample data -/

/-- The effect one field actually has on the accumulator: only the
field-definition map is touched, because `normalizeFieldValue` is invoked
with no mapping argument and hence returns null, so the staging guard
`normalizedValue !== null` never passes. -/
def defStep (cf : List (String × FieldDef)) (f : Option CustomField) : List (String × FieldDef) :=
  match f with
  | none => cf
  | some field =>
    match field.name with
    | none => cf
    | some rawName =>
      if rawName = "" then cf
      else objInsert cf (cleanNameOf rawName)
        ⟨field.id, field.ftype,
         if truthy field.type_config then field.type_config else .obj [],
         rawName⟩

/-- The field-definition map computed for a detail. -/
def customFieldsOf (d : TaskDetail) : List (String × FieldDef) :=
  d.custom_fields.foldl defStep []

/-- The three structured map columns of a task row. -/
def mapsOf (r : TaskRow) : JsValue × JsValue × JsValue :=
  (r.custom_fields, r.relationships, r.field_values)

/-! ## Concrete sample data for the claim instances -/

/-- A task detail with no custom fields. -/
def sampleDetail : TaskDetail :=
  { name := some ("Task one")
    text_content := none
    description := none
    status := .str ("open")
    date_created := .null
    date_updated := .null
    creator := .null
    custom_fields := []
    parent := none
    custom_type := none }

/-- An importer-created task row. -/
def sampleRow : TaskRow :=
  { airbyte_raw_id := ("ab-raw-1")
    airbyte_extracted_at := .clock 1
    name := some ("Old")
    text_content := none
    description := none
    status := some (.str ("todo"))
    date_created := .null
    date_updated := .null
    creator := .obj []
    custom_fields := .obj []
    relationships := .obj []
    field_values := .obj []
    custom_type := .obj []
    task_type_id := none
    task_type_name := none
    updated_at := .clock 1 }

/-- A store holding the single task `t1`. -/
def dbOne : DB := ⟨[(("t1"), sampleRow)], []⟩

/-- The empty store. -/
def emptyDB : DB := ⟨[], []⟩

/-- The `Client 🎯` custom field with the non-null value `Acme`. -/
def clientField : CustomField :=
  { id := ("f1")
    name := some ("Client 🎯")
    ftype := ("short_text")
    type_config := .undef
    value := .str ("Acme") }

/-- A detail whose only custom field is `clientField`. -/
def clientDetail : TaskDetail :=
  { sampleDetail with custom_fields := [some clientField] }

/-- The concurrent deletion of a task row by the external writer. -/
def removeTask (taskId : String) (db : DB) : DB :=
  { db with tasks := db.tasks.filter (fun p => p.1 != taskId) }

/-- A stale locally stored task type. -/
def staleTypeRow : TaskTypeRow :=
  { name := ("Bug")
    color := .null
    status := .str ("active")
    orderindex := .num 0
    workspace_id := ("ws")
    updated_at := 0 }

/-- A freshly fetched type definition. -/
def typeDefX : TypeDef :=
  { id := ("x1")
    name := ("Feature")
    color := .str ("blue")
    status := .null
    orderindex := .num 3 }

/-- Ledger store whose `client` column currently holds the string `A`. -/
def stA : LedgerState := ⟨[(("t1"), [(("client"), .str ("A"))])], []⟩

/-- Ledger store whose `client` column currently holds the string `B`. -/
def stB : LedgerState := ⟨[(("t1"), [(("client"), .str ("B"))])], []⟩

/-- An object with keys `a`, `b` in that order. -/
def vAB : JsValue := .obj [(("a"), .num 1), (("b"), .num 2)]

/-- The same object with its keys in the opposite order. -/
def vBA : JsValue := .obj [(("b"), .num 2), (("a"), .num 1)]

/-- Ledger store whose `client` column currently holds `vAB`. -/
def stAB : LedgerState := ⟨[(("t1"), [(("client"), vAB)])], []⟩

/-- Outcome sequences for the retry claims. -/
def all502 : Nat → Except ReqError Unit := fun _ => .error (.http 502)

def failOther : Nat → Except ReqError Unit := fun _ => .error (.other ("boom"))

def once429 : Nat → Except ReqError Unit :=
  fun i => if i = 0 then .error (.http 429) else .ok ()

/-! ## Lemmas: association lists -/

theorem assocLookup_append {α : Type} (l m : List (String × α)) (k : String) :
    assocLookup (l ++ m) k =
      match assocLookup l k with
      | some v => some v
      | none => assocLookup m k := by
  induction l with
  | nil => rfl
  | cons p ps ih =>
    obtain ⟨a, b⟩ := p
    by_cases h : k = a <;> simp [assocLookup, h, ih]

theorem assocLookup_append_single {α : Type} (l : List (String × α)) (k : String) (v : α)
    (h : assocLookup l k = none) : assocLookup (l ++ [(k, v)]) k = some v := by
  rw [assocLookup_append, h]
  simp [assocLookup]

theorem assocLookup_updateWhere {α : Type} (l : List (String × α)) (k : String) (f : α → α) :
    assocLookup (updateWhere l k f) k = (assocLookup l k).map f := by
  induction l with
  | nil => rfl
  | cons p ps ih =>
    obtain ⟨a, b⟩ := p
    by_cases h : k = a
    · simp [updateWhere, assocLookup, h, ih]
    · have h2 : ¬ (a = k) := fun hh => h hh.symm
      simp [updateWhere, assocLookup, h, h2, ih]

theorem assocLookup_updateWhere_ne {α : Type} (l : List (String × α)) (k k' : String)
    (f : α → α) (h : k' ≠ k) :
    assocLookup (updateWhere l k f) k' = assocLookup l k' := by
  induction l with
  | nil => rfl
  | cons p ps ih =>
    obtain ⟨a, b⟩ := p
    by_cases hk : k' = a
    · have h2 : ¬ (a = k) := fun hh => h (hk.trans hh)
      simp [updateWhere, assocLookup, hk, h2]
    · simp [updateWhere, assocLookup, hk, ih]

theorem keys_updateWhere {α : Type} (l : List (String × α)) (k : String) (f : α → α) :
    (updateWhere l k f).map Prod.fst = l.map Prod.fst := by
  induction l with
  | nil => rfl
  | cons p ps ih =>
    obtain ⟨a, b⟩ := p
    simp [updateWhere, ih]

theorem assocLookup_none_of_keyMem_false {α : Type} (l : List (String × α)) (k : String)
    (h : keyMem k l = false) : assocLookup l k = none := by
  induction l with
  | nil => rfl
  | cons p ps ih =>
    obtain ⟨a, b⟩ := p
    by_cases ha : k = a
    · simp [keyMem, ha] at h
    · have ha2 : ¬ (a = k) := fun hh => ha hh.symm
      simp [keyMem, ha2] at h
      have hm : keyMem k ps = false := by
        simp [keyMem]
        exact h
      simp [assocLookup, ha, ih hm]

theorem keyMem_true_of_assocLookup_some {α : Type} (l : List (String × α)) (k : String)
    (v : α) (h : assocLookup l k = some v) : keyMem k l = true := by
  induction l with
  | nil => simp [assocLookup] at h
  | cons p ps ih =>
    obtain ⟨a, b⟩ := p
    by_cases ha : k = a
    · simp [keyMem, ha]
    · simp [assocLookup, ha] at h
      have h2 := ih h
      simp [keyMem] at h2 ⊢
      exact Or.inr h2

theorem assocLookup_isSome_of_keyMem {α : Type} (l : List (String × α)) (k : String)
    (h : keyMem k l = true) : (assocLookup l k).isSome = true := by
  induction l with
  | nil => simp [keyMem] at h
  | cons p ps ih =>
    obtain ⟨a, b⟩ := p
    by_cases ha : k = a
    · simp [assocLookup, ha]
    · have ha2 : ¬ (a = k) := fun hh => ha hh.symm
      simp [keyMem, ha2] at h
      have hm : keyMem k ps = true := by
        simp [keyMem]
        exact h
      simp [assocLookup, ha, ih hm]

theorem keyMem_updateWhere {α : Type} (l : List (String × α)) (k k' : String) (f : α → α) :
    keyMem k (updateWhere l k' f) = keyMem k l := by
  induction l with
  | nil => rfl
  | cons p ps ih =>
    obtain ⟨a, b⟩ := p
    simp [updateWhere, keyMem] at ih ⊢
    rw [ih]

theorem keyMem_append {α : Type} (l m : List (String × α)) (k : String) :
    keyMem k (l ++ m) = (keyMem k l || keyMem k m) := by
  simp [keyMem, List.any_append]

theorem keyMem_cons {α : Type} (a : String) (b : α) (ps : List (String × α)) (k : String) :
    keyMem k ((a, b) :: ps) = (decide (a = k) || keyMem k ps) := rfl

theorem keyMem_filter_key {α : Type} (l : List (String × α)) (k : String) (q : String → Bool) :
    keyMem k (l.filter (fun p => q p.1)) = (keyMem k l && q k) := by
  induction l with
  | nil => simp [keyMem]
  | cons p ps ih =>
    obtain ⟨a, b⟩ := p
    rw [List.filter_cons, keyMem_cons]
    by_cases ha : a = k
    · subst ha
      by_cases hq : q a
      · simp only [hq, if_pos]
        rw [keyMem_cons, ih]
        simp [hq]
      · have hqf : q a = false := by simpa using hq
        simp only [hqf]
        rw [if_neg (by simp), ih]
        simp [hqf]
    · have haf : decide (a = k) = false := by simpa using ha
      by_cases hq : q a
      · simp only [hq, if_pos]
        rw [keyMem_cons, ih]
        simp [haf]
      · have hqf : q a = false := by simpa using hq
        simp only [hqf]
        rw [if_neg (by simp), ih]
        simp [haf]

theorem assocLookup_filter_key {α : Type} (l : List (String × α)) (k : String)
    (q : String → Bool) (h : q k = true) :
    assocLookup (l.filter (fun p => q p.1)) k = assocLookup l k := by
  induction l with
  | nil => rfl
  | cons p ps ih =>
    obtain ⟨a, b⟩ := p
    by_cases ha : k = a
    · subst ha
      simp [List.filter, h, assocLookup]
    · by_cases hq : q a
      · simp [List.filter, hq, assocLookup, ha, ih]
      · simp [List.filter, hq, assocLookup, ha, ih]

/-! ## Lemmas: the staging branch of the field loop is dead -/

theorem processField_eq (now : Nat) (fd : FieldData) (f : Option CustomField) :
    processField now fd f = { fd with customFields := defStep fd.customFields f } := by
  cases f with
  | none => rfl
  | some field =>
    cases h : field.name with
    | none => simp [processField, defStep, h]
    | some rawName =>
      by_cases he : rawName = ""
      · simp [processField, defStep, h, he]
      · by_cases hv : isNullish field.value
        · simp [processField, defStep, h, he, hv]
        · simp [processField, defStep, h, he, hv, normalizeFieldValue, isNull]

theorem foldl_processField (now : Nat) (l : List (Option CustomField)) (fd : FieldData) :
    l.foldl (processField now) fd
      = { fd with customFields := l.foldl defStep fd.customFields } := by
  induction l generalizing fd with
  | nil => rfl
  | cons f fs ih => simp [List.foldl, processField_eq, ih]

theorem buildFieldData_eq (now : Nat) (d : TaskDetail) :
    buildFieldData now d = { initFieldData d with customFields := customFieldsOf d } := by
  simp [buildFieldData, foldl_processField, customFieldsOf, initFieldData]

theorem buildFieldData_fieldValues (now : Nat) (d : TaskDetail) :
    (buildFieldData now d).fieldValues = [] := by
  rw [buildFieldData_eq]
  rfl

theorem buildFieldData_now_independent (now now' : Nat) (d : TaskDetail) :
    buildFieldData now d = buildFieldData now' d := by
  rw [buildFieldData_eq, buildFieldData_eq]

/-! ## Lemmas: the type-catalog upsert -/

theorem assocLookup_upsert_self (now : Nat) (ws : String)
    (table : List (String × TaskTypeRow)) (ty : TypeDef) :
    assocLookup (upsertType now ws table ty) ty.id = some (typeRowOf now ws ty) := by
  unfold upsertType
  by_cases h : keyMem ty.id table
  · rw [if_pos h, assocLookup_updateWhere]
    rcases hl : assocLookup table ty.id with _ | v
    · have hs := assocLookup_isSome_of_keyMem table ty.id h
      rw [hl] at hs
      simp at hs
    · rfl
  · have hf : keyMem ty.id table = false := by simpa using h
    rw [if_neg h]
    exact assocLookup_append_single table ty.id (typeRowOf now ws ty)
      (assocLookup_none_of_keyMem_false table ty.id hf)

theorem assocLookup_upsert_ne (now : Nat) (ws : String)
    (table : List (String × TaskTypeRow)) (ty : TypeDef) (k : String) (h : k ≠ ty.id) :
    assocLookup (upsertType now ws table ty) k = assocLookup table k := by
  unfold upsertType
  by_cases hm : keyMem ty.id table
  · rw [if_pos hm, assocLookup_updateWhere_ne _ _ _ _ h]
  · rw [if_neg hm, assocLookup_append]
    rcases hl : assocLookup table k with _ | v
    · simp [assocLookup, h]
    · rfl

theorem keyMem_upsert (now : Nat) (ws : String)
    (table : List (String × TaskTypeRow)) (ty : TypeDef) (k : String) :
    keyMem k (upsertType now ws table ty) = (keyMem k table || decide (ty.id = k)) := by
  unfold upsertType
  by_cases hm : keyMem ty.id table
  · rw [if_pos hm, keyMem_updateWhere]
    by_cases he : ty.id = k
    · subst he
      simp [hm]
    · simp [he]
  · rw [if_neg hm, keyMem_append]
    have : keyMem k ([(ty.id, typeRowOf now ws ty)] : List (String × TaskTypeRow))
        = decide (ty.id = k) := by
      simp [keyMem]
    rw [this]

/-! ## Lemmas: the merge flow -/

theorem ensureTask_lookup_isSome (now : Nat) (d : TaskDetail) (db : DB) (taskId : String) :
    (assocLookup (ensureTask now d db taskId).tasks taskId).isSome = true := by
  unfold ensureTask
  by_cases h : checkTaskExists db taskId
  · rw [if_pos h]
    exact h
  · rw [if_neg h]
    have hn : assocLookup db.tasks taskId = none := by
      unfold checkTaskExists at h
      rcases hl : assocLookup db.tasks taskId with _ | v
      · rfl
      · rw [hl] at h
        simp at h
    have := assocLookup_append_single db.tasks taskId (placeholderRow now taskId d) hn
    simp [insertPlaceholder, this]

theorem syncTypeStep_tasks_isSome (now : Nat) (d : TaskDetail) (types : List TypeDef)
    (ws : String) (db : DB) (taskId k : String) :
    (assocLookup (syncTypeStep now d types ws db taskId).tasks k).isSome
      = (assocLookup db.tasks k).isSome := by
  unfold syncTypeStep
  cases d.custom_type with
  | none => rfl
  | some ct =>
    by_cases h : ct.id = ""
    · simp [h]
    · by_cases hk : k = taskId
      · subst hk
        simp [h, updateTaskTypeRelationships, modifyTask, assocLookup_updateWhere]
      · simp [h, updateTaskTypeRelationships, modifyTask,
              assocLookup_updateWhere_ne _ _ _ _ hk]

theorem sync_lookup_after (d : TaskDetail) (types : List TypeDef) (ws : String) (now : Nat)
    (db : DB) (taskId : String) :
    ∃ r : TaskRow,
      assocLookup ((syncTaskCustomFields (some d) types ws now db taskId (fun x => x)).1).tasks taskId
        = some (applyFieldUpdate now (buildFieldData now d) r) := by
  have h1 := ensureTask_lookup_isSome now d db taskId
  obtain ⟨r1, hr1⟩ := Option.isSome_iff_exists.mp h1
  have h3 : (assocLookup (syncTypeStep now d types ws (ensureTask now d db taskId) taskId).tasks taskId).isSome = true := by
    rw [syncTypeStep_tasks_isSome, hr1]
    rfl
  obtain ⟨r3, hr3⟩ := Option.isSome_iff_exists.mp h3
  refine ⟨r3, ?_⟩
  simp only [syncTaskCustomFields, updateTaskCustomFields, modifyTask]
  rw [hr1]
  simp only []
  rw [hr3]
  simp only []
  rw [assocLookup_updateWhere, hr3]
  rfl

theorem sync_maps (d : TaskDetail) (types : List TypeDef) (ws : String) (now : Nat)
    (db : DB) (taskId : String) :
    (assocLookup ((syncTaskCustomFields (some d) types ws now db taskId (fun x => x)).1).tasks taskId).map mapsOf
      = some (customFieldsDoc (customFieldsOf d),
              relationshipsDoc (initFieldData d).relationships,
              fieldValuesDoc []) := by
  obtain ⟨r, hr⟩ := sync_lookup_after d types ws now db taskId
  rw [hr]
  simp only [Option.map_some']
  rw [buildFieldData_eq]
  rfl

theorem syncTypeStep_keys (now : Nat) (d : TaskDetail) (types : List TypeDef) (ws : String)
    (db : DB) (taskId : String) :
    (syncTypeStep now d types ws db taskId).tasks.map Prod.fst = db.tasks.map Prod.fst := by
  unfold syncTypeStep
  cases d.custom_type with
  | none => rfl
  | some ct =>
    by_cases h : ct.id = ""
    · simp [h]
    · simp [h, updateTaskTypeRelationships, modifyTask, keys_updateWhere]

theorem sync_keys (d : TaskDetail) (types : List TypeDef) (ws : String) (now : Nat)
    (db : DB) (taskId : String) :
    ((syncTaskCustomFields (some d) types ws now db taskId (fun x => x)).1).tasks.map Prod.fst
      = (ensureTask now d db taskId).tasks.map Prod.fst := by
  have h1 := ensureTask_lookup_isSome now d db taskId
  obtain ⟨r1, hr1⟩ := Option.isSome_iff_exists.mp h1
  have h3 : (assocLookup (syncTypeStep now d types ws (ensureTask now d db taskId) taskId).tasks taskId).isSome = true := by
    rw [syncTypeStep_tasks_isSome, hr1]
    rfl
  obtain ⟨r3, hr3⟩ := Option.isSome_iff_exists.mp h3
  simp only [syncTaskCustomFields, updateTaskCustomFields, modifyTask]
  rw [hr1]
  simp only []
  rw [hr3]
  simp only []
  rw [keys_updateWhere]
  exact syncTypeStep_keys now d types ws (ensureTask now d db taskId) taskId

theorem sync_success_always (d : TaskDetail) (types : List TypeDef) (ws : String) (now : Nat)
    (db : DB) (taskId : String) (interfere : DB → DB) :
    (syncTaskCustomFields (some d) types ws now db taskId interfere).2.success = true := by
  have h1 := ensureTask_lookup_isSome now d db taskId
  obtain ⟨r1, hr1⟩ := Option.isSome_iff_exists.mp h1
  simp only [syncTaskCustomFields]
  rw [hr1]

/-! ## Lemmas: the whole-catalog refresh -/

theorem keyMem_upsertAll (now : Nat) (ws : String) (tys : List TypeDef) (k : String) :
    ∀ t : List (String × TaskTypeRow),
      keyMem k (tys.foldl (upsertType now ws) t)
        = (keyMem k t || tys.any (fun ty => ty.id = k)) := by
  induction tys with
  | nil => intro t; simp
  | cons ty rest ih =>
    intro t
    rw [List.foldl_cons, ih, keyMem_upsert]
    simp [Bool.or_assoc]

theorem assocLookup_foldl_upsert_ne (now : Nat) (ws : String) (tys : List TypeDef) (k : String) :
    ∀ t, (∀ ty ∈ tys, ty.id ≠ k) →
      assocLookup (tys.foldl (upsertType now ws) t) k = assocLookup t k := by
  induction tys with
  | nil =>
    intro t _
    rfl
  | cons ty rest ih =>
    intro t h
    rw [List.foldl_cons, ih _ (fun ty2 hm => h ty2 (List.mem_cons_of_mem _ hm)),
        assocLookup_upsert_ne _ _ _ _ _ (Ne.symm (h ty (List.mem_cons_self ty rest)))]

theorem assocLookup_upsertAll_nodup (now : Nat) (ws : String) (tys : List TypeDef) (ty : TypeDef) :
    ∀ t, ty ∈ tys → (tys.map (fun t2 => t2.id)).Nodup →
      assocLookup (tys.foldl (upsertType now ws) t) ty.id = some (typeRowOf now ws ty) := by
  induction tys with
  | nil =>
    intro t hm _
    cases hm
  | cons t0 rest ih =>
    intro t hm hnd
    rw [List.foldl_cons]
    rcases List.mem_cons.mp hm with he | hmem
    · subst he
      rw [List.map_cons] at hnd
      have hnc := List.nodup_cons.mp hnd
      have hni : ∀ ty2 ∈ rest, ty2.id ≠ ty.id := by
        intro ty2 h2 heq
        exact hnc.1 (List.mem_map.mpr ⟨ty2, h2, heq⟩)
      rw [assocLookup_foldl_upsert_ne now ws rest ty.id _ hni, assocLookup_upsert_self]
    · have hnd2 : (rest.map (fun t2 => t2.id)).Nodup := by
        rw [List.map_cons] at hnd
        exact (List.nodup_cons.mp hnd).2
      exact ih (upsertType now ws t t0) hmem hnd2

theorem contains_map_ids (types : List TypeDef) (id : String) :
    (types.map (fun t => t.id)).contains id = types.any (fun t => t.id = id) := by
  induction types with
  | nil => rfl
  | cons t ts ih =>
    rw [List.map_cons, List.contains_cons, List.any_cons, ih]
    by_cases h : t.id = id
    · simp [h]
    · have h2 : ¬ (id = t.id) := fun hh => h hh.symm
      simp [h, h2]

/-! ## Claim theorems -/

/-- C1: evidence of the code bug the claim exposes.  A custom field named
`Client 🎯` has clean name `Client`, which the static table maps to the
dedicated column `client`, and carries the non-null value `Acme`; the spec
(and the claim) therefore require an entry in the persisted value map.  The
code stages nothing: the computed `fieldValues` is empty and the persisted
`field_values` document is the empty object, because the call at
sync.js:162 passes no mapping argument to `normalizeFieldValue`, which then
returns null for every field. -/
theorem c1_mapped_field_value_never_staged :
    cleanNameOf ("Client 🎯") = ("Client")
    ∧ mapFieldName ("Client") = some ⟨("client"), TType.text⟩
    ∧ isNullish clientField.value = false
    ∧ (buildFieldData 0 clientDetail).fieldValues = []
    ∧ (assocLookup ((syncTaskCustomFields (some clientDetail) [] ("ws") 0 dbOne ("t1")
        (fun x => x)).1).tasks ("t1")).map TaskRow.field_values = some (.obj []) :=
  ⟨rfl, rfl, rfl, rfl, rfl⟩

/-- C2: invoking the sync twice in succession with unchanged upstream
detail (and unchanged type catalog) leaves the stored field-definition map,
relationships map and value map after the second call identical to what
they were after the first call. -/
theorem c2_sync_idempotent_maps (detail : Option TaskDetail) (types : List TypeDef)
    (ws : String) (now1 now2 : Nat) (db : DB) (taskId : String) :
    (assocLookup ((syncTaskCustomFields detail types ws now2
        ((syncTaskCustomFields detail types ws now1 db taskId (fun x => x)).1)
        taskId (fun x => x)).1).tasks taskId).map mapsOf
      = (assocLookup ((syncTaskCustomFields detail types ws now1 db taskId
          (fun x => x)).1).tasks taskId).map mapsOf := by
  cases detail with
  | none => rfl
  | some d => rw [sync_maps, sync_maps]

/-- C3: counterexample to the claim.  The row `t1` exists at the
existence check but the external writer deletes it before the persisting
UPDATE; the UPDATE matches zero rows, the transaction is rolled back and
the update helper returns null — yet `syncTaskCustomFields` reports
success (`success = true`) with a null task, not the failure the claim
states. -/
theorem c3_counterexample :
    (syncTaskCustomFields (some sampleDetail) [] ("ws") 2 dbOne ("t1")
      (removeTask ("t1"))).2.success = true
    ∧ (syncTaskCustomFields (some sampleDetail) [] ("ws") 2 dbOne ("t1")
      (removeTask ("t1"))).2.task = none :=
  ⟨rfl, rfl⟩

/-- C3 (amended): when the UPDATE matches zero rows the transaction is
rolled back (storage is left unchanged by the update step) and
`updateTaskCustomFields` returns null to the sync service — but
`syncTaskCustomFields` nevertheless reports success (ok:true) to its
caller whenever the task was found upstream, regardless of the update's
outcome. -/
theorem c3_amended :
    (∀ (now : Nat) (db : DB) (taskId : String) (fd : FieldData),
        assocLookup db.tasks taskId = none →
        updateTaskCustomFields now db taskId fd = (db, none))
    ∧ (∀ (d : TaskDetail) (types : List TypeDef) (ws : String) (now : Nat) (db : DB)
        (taskId : String) (interfere : DB → DB),
        (syncTaskCustomFields (some d) types ws now db taskId interfere).2.success = true) := by
  constructor
  · intro now db taskId fd h
    simp [updateTaskCustomFields, h]
  · intro d types ws now db taskId interfere
    exact sync_success_always d types ws now db taskId interfere

theorem c3_amended_witness :
    updateTaskCustomFields 5 emptyDB ("t9") (initFieldData sampleDetail) = (emptyDB, none)
    ∧ (syncTaskCustomFields (some sampleDetail) [] ("ws") 2 dbOne ("t1")
        (removeTask ("t1"))).2.success = true :=
  ⟨c3_amended.1 5 emptyDB ("t9") (initFieldData sampleDetail) rfl,
   c3_amended.2 sampleDetail [] ("ws") 2 dbOne ("t1") (removeTask ("t1"))⟩

/-- C4: counterexample to the claim.  The field-data UPDATE refreshes
`_airbyte_extracted_at` to the current timestamp on every sync: the row
`t1`, extracted at tick 1, is re-stamped to tick 2 by an update at tick 2,
so the UPDATE does not leave both provenance columns unchanged. -/
theorem c4_counterexample :
    (assocLookup dbOne.tasks ("t1")).map TaskRow.airbyte_extracted_at = some (.clock 1)
    ∧ (assocLookup ((updateTaskCustomFields 2 dbOne ("t1")
        (initFieldData sampleDetail)).1).tasks ("t1")).map TaskRow.airbyte_extracted_at
        = some (.clock 2)
    ∧ (TimeStamp.clock 2 ≠ TimeStamp.clock 1) := by
  refine ⟨rfl, rfl, ?_⟩
  simp

/-- C4 (amended): on an existing row the field-data UPDATE never modifies
`_airbyte_raw_id`, but it refreshes `_airbyte_extracted_at` to the current
timestamp on every sync (the placeholder insert aside, `_airbyte_raw_id`
is the only importer provenance column this core leaves untouched). -/
theorem c4_amended (now : Nat) (db : DB) (taskId : String) (fd : FieldData) (r : TaskRow)
    (h : assocLookup db.tasks taskId = some r) :
    assocLookup ((updateTaskCustomFields now db taskId fd).1).tasks taskId
      = some (applyFieldUpdate now fd r)
    ∧ (applyFieldUpdate now fd r).airbyte_raw_id = r.airbyte_raw_id
    ∧ (applyFieldUpdate now fd r).airbyte_extracted_at = .clock now := by
  refine ⟨?_, rfl, rfl⟩
  simp [updateTaskCustomFields, h, modifyTask, assocLookup_updateWhere]

theorem c4_amended_witness :
    assocLookup ((updateTaskCustomFields 2 dbOne ("t1") (initFieldData sampleDetail)).1).tasks ("t1")
      = some (applyFieldUpdate 2 (initFieldData sampleDetail) sampleRow)
    ∧ (applyFieldUpdate 2 (initFieldData sampleDetail) sampleRow).airbyte_raw_id
      = sampleRow.airbyte_raw_id
    ∧ (applyFieldUpdate 2 (initFieldData sampleDetail) sampleRow).airbyte_extracted_at
      = .clock 2 :=
  c4_amended 2 dbOne ("t1") (initFieldData sampleDetail) sampleRow rfl

/-- C5: the persist step coalesces the status, name and description
columns: each is overwritten exactly when the corresponding new value is
non-null, and preserved otherwise — and the new values carried by the
computed field data are the upstream detail's name, status (projected) and
description. -/
theorem c5_coalesce_descriptive (now : Nat) (db : DB) (taskId : String) (fd : FieldData)
    (r : TaskRow) (d : TaskDetail) (h : assocLookup db.tasks taskId = some r) :
    ((buildFieldData now d).name = d.name
      ∧ (buildFieldData now d).description = d.description
      ∧ (buildFieldData now d).status = statusParam d.status)
    ∧ assocLookup ((updateTaskCustomFields now db taskId fd).1).tasks taskId
      = some (applyFieldUpdate now fd r)
    ∧ (fd.name = none → (applyFieldUpdate now fd r).name = r.name)
    ∧ (∀ s, fd.name = some s → (applyFieldUpdate now fd r).name = some s)
    ∧ (fd.description = none → (applyFieldUpdate now fd r).description = r.description)
    ∧ (∀ s, fd.description = some s → (applyFieldUpdate now fd r).description = some s)
    ∧ (sqlBind fd.status = none → (applyFieldUpdate now fd r).status = r.status)
    ∧ (∀ v, sqlBind fd.status = some v → (applyFieldUpdate now fd r).status = some v) := by
  refine ⟨⟨?_, ?_, ?_⟩, ?_, ?_, ?_, ?_, ?_, ?_, ?_⟩
  · rw [buildFieldData_eq]
    rfl
  · rw [buildFieldData_eq]
    rfl
  · rw [buildFieldData_eq]
    rfl
  · simp [updateTaskCustomFields, h, modifyTask, assocLookup_updateWhere]
  · intro hn
    rw [show (applyFieldUpdate now fd r).name = coalesceOpt fd.name r.name from rfl, hn]
    rfl
  · intro s hn
    rw [show (applyFieldUpdate now fd r).name = coalesceOpt fd.name r.name from rfl, hn]
    rfl
  · intro hn
    rw [show (applyFieldUpdate now fd r).description
        = coalesceOpt fd.description r.description from rfl, hn]
    rfl
  · intro s hn
    rw [show (applyFieldUpdate now fd r).description
        = coalesceOpt fd.description r.description from rfl, hn]
    rfl
  · intro hn
    rw [show (applyFieldUpdate now fd r).status
        = sqlCoalesce (sqlBind fd.status) r.status from rfl, hn]
    rfl
  · intro v hn
    rw [show (applyFieldUpdate now fd r).status
        = sqlCoalesce (sqlBind fd.status) r.status from rfl, hn]
    rfl

theorem c5_coalesce_descriptive_witness :
    ((applyFieldUpdate 3 { initFieldData sampleDetail with name := none } sampleRow).name
      = sampleRow.name
    ∧ (applyFieldUpdate 3 { initFieldData sampleDetail with name := some ("New") } sampleRow).name
      = some ("New"))
    ∧ sampleRow.name = some ("Old") := by
  refine ⟨⟨?_, ?_⟩, rfl⟩
  · exact (c5_coalesce_descriptive 3 dbOne ("t1")
      { initFieldData sampleDetail with name := none } sampleRow sampleDetail rfl).2.2.1 rfl
  · exact (c5_coalesce_descriptive 3 dbOne ("t1")
      { initFieldData sampleDetail with name := some ("New") } sampleRow sampleDetail
        rfl).2.2.2.1 ("New") rfl

/-- C10: the value map this sync writes to storage is always the empty
document: no custom-field value is ever staged, whatever the task's
fields, because the staging condition requires a non-null normalized value
and `normalizeFieldValue` is invoked without a mapping argument and
returns null for every field. -/
theorem c10_value_map_always_empty (d : TaskDetail) (types : List TypeDef) (ws : String)
    (now : Nat) (db : DB) (taskId : String) :
    (buildFieldData now d).fieldValues = []
    ∧ (assocLookup ((syncTaskCustomFields (some d) types ws now db taskId
        (fun x => x)).1).tasks taskId).map TaskRow.field_values = some (.obj []) := by
  refine ⟨buildFieldData_fieldValues now d, ?_⟩
  obtain ⟨r, hr⟩ := sync_lookup_after d types ws now db taskId
  rw [hr]
  simp only [Option.map_some']
  rw [show (applyFieldUpdate now (buildFieldData now d) r).field_values
      = fieldValuesDoc (buildFieldData now d).fieldValues from rfl]
  rw [buildFieldData_fieldValues]
  rfl

/-- C6: counterexample to the claim.  With a non-empty local table and an
empty fetched catalog, the refresh leaves the stale row in place (the
delete is guarded by `typeIds.length > 0`), so the stored set does not
equal the fetched set for the empty catalog. -/
theorem c6_counterexample :
    syncTaskTypes 1 ("ws") [(("old1"), staleTypeRow)] [] = [(("old1"), staleTypeRow)]
    ∧ ([] : List TypeDef) = [] :=
  ⟨rfl, rfl⟩

/-- C6 (amended): after a catalog refresh with a NON-EMPTY fetched
catalog, the stored ids are exactly the fetched ids (every fetched type
present, every other stored type deleted), and — when the fetched ids are
distinct — each fetched type's stored row carries its current attributes;
with an empty fetched catalog no deletion is performed and the stored
table is left unchanged. -/
theorem c6_amended (now : Nat) (ws : String) (table : List (String × TaskTypeRow))
    (types : List TypeDef) (hne : types ≠ []) :
    (∀ id, keyMem id (syncTaskTypes now ws table types)
        = types.any (fun t => t.id = id))
    ∧ ((types.map (fun t => t.id)).Nodup →
        ∀ ty ∈ types, assocLookup (syncTaskTypes now ws table types) ty.id
          = some (typeRowOf now ws ty))
    ∧ (∀ table2, syncTaskTypes now ws table2 [] = table2) := by
  have hlen : (types.map (fun t => t.id)).length > 0 := by
    simpa using List.length_pos.mpr hne
  refine ⟨?_, ?_, fun table2 => rfl⟩
  · intro id
    unfold syncTaskTypes
    simp only [hlen, if_pos]
    rw [keyMem_filter_key _ _ (fun s => (types.map (fun t => t.id)).contains s),
        keyMem_upsertAll, contains_map_ids]
    rcases hb : types.any (fun t => t.id = id) with _ | _
    · simp [hb]
    · simp [hb]
  · intro hnd ty hmem
    unfold syncTaskTypes
    simp only [hlen, if_pos]
    have hq : (fun s => (types.map (fun t => t.id)).contains s) ty.id = true := by
      show (types.map (fun t => t.id)).contains ty.id = true
      rw [contains_map_ids]
      exact List.any_eq_true.mpr ⟨ty, hmem, by simp⟩
    rw [assocLookup_filter_key _ _ (fun s => (types.map (fun t => t.id)).contains s) hq]
    exact assocLookup_upsertAll_nodup now ws types ty table hmem hnd

theorem c6_amended_witness :
    keyMem ("x1") (syncTaskTypes 3 ("ws") [(("old1"), staleTypeRow)] [typeDefX]) = true
    ∧ keyMem ("old1") (syncTaskTypes 3 ("ws") [(("old1"), staleTypeRow)] [typeDefX]) = false
    ∧ assocLookup (syncTaskTypes 3 ("ws") [(("old1"), staleTypeRow)] [typeDefX]) ("x1")
        = some (typeRowOf 3 ("ws") typeDefX) := by
  have h := c6_amended 3 ("ws") [(("old1"), staleTypeRow)] [typeDefX] (by simp)
  refine ⟨?_, ?_, ?_⟩
  · rw [h.1 ("x1")]
    rfl
  · rw [h.1 ("old1")]
    rfl
  · exact h.2.1 (by simp) typeDefX (by simp)

/-- C7: on 502 or 429 the detail fetch is retried up to 3 attempts total
with linear back-off delay = 2000 × attempt number; any other error
propagates immediately without a retry; three consecutive 502 responses
exhaust the budget and the call fails with the 502 error (never a silent
empty success); and no run ever sleeps more than twice (at most 3
attempts). -/
theorem c7_retry_policy (α : Type) (outcomes : Nat → Except ReqError α) :
    ((∀ i, i < 3 → outcomes i = .error (.http 502)) →
      getTaskDetailsRequest outcomes = (.error (.http 502), [2000 * 1, 2000 * 2]))
    ∧ (∀ e, isTransientStatus e = false → outcomes 0 = .error e →
      getTaskDetailsRequest outcomes = (.error e, []))
    ∧ (∀ v, outcomes 0 = .error (.http 429) → outcomes 1 = .ok v →
      getTaskDetailsRequest outcomes = (.ok (some v), [2000 * 1]))
    ∧ (getTaskDetailsRequest outcomes).2.length ≤ 2 := by
  refine ⟨?_, ?_, ?_, ?_⟩
  · intro h
    have h0 := h 0 (by omega)
    have h1 := h 1 (by omega)
    have h2 := h 2 (by omega)
    simp [getTaskDetailsRequest, retryRequest, retryGo, h0, h1, h2, isTransientStatus]
  · intro e he h0
    simp [getTaskDetailsRequest, retryRequest, retryGo, h0, he]
  · intro v h0 h1
    simp [getTaskDetailsRequest, retryRequest, retryGo, h0, h1, isTransientStatus]
  · rcases h0 : outcomes 0 with e0 | v0
    · rcases ht0 : isTransientStatus e0 with _ | _
      · simp [getTaskDetailsRequest, retryRequest, retryGo, h0, ht0]
      · rcases h1 : outcomes 1 with e1 | v1
        · rcases ht1 : isTransientStatus e1 with _ | _
          · simp [getTaskDetailsRequest, retryRequest, retryGo, h0, ht0, h1, ht1]
          · rcases h2 : outcomes 2 with e2 | v2
            · simp [getTaskDetailsRequest, retryRequest, retryGo, h0, ht0, h1, ht1, h2]
            · simp [getTaskDetailsRequest, retryRequest, retryGo, h0, ht0, h1, ht1, h2]
        · simp [getTaskDetailsRequest, retryRequest, retryGo, h0, ht0, h1]
    · simp [getTaskDetailsRequest, retryRequest, retryGo, h0]

theorem c7_retry_policy_witness :
    getTaskDetailsRequest all502 = (.error (.http 502), [2000 * 1, 2000 * 2])
    ∧ getTaskDetailsRequest failOther = (.error (.other ("boom")), [])
    ∧ getTaskDetailsRequest once429 = (.ok (some ()), [2000 * 1]) :=
  ⟨(c7_retry_policy Unit all502).1 (fun _ _ => rfl),
   (c7_retry_policy Unit failOther).2.1 (.other ("boom")) rfl rfl,
   (c7_retry_policy Unit once429).2.2.1 () rfl rfl⟩

/-- C8: counterexample to the claim.  The objects `{a:1, b:2}` and
`{b:2, a:1}` are equal under the deep, key-order-insensitive structural
equality the claim describes, yet the ledger helper appends a change
record and rewrites the column, because the code compares key-order-
sensitive `JSON.stringify` serializations. -/
theorem c8_counterexample :
    specStructEq vAB vBA = true
    ∧ (updateTaskField 0 stAB ("t1") ("client") vBA).changes.length = 1
    ∧ (assocLookup ((updateTaskField 0 stAB ("t1") ("client") vBA).tasks) ("t1")).map
        (fun row => assocLookup row ("client")) = some (some vBA) := by
  refine ⟨rfl, ?_, ?_⟩ <;> rfl

/-- C8 (amended): the ledger helper appends exactly one `field_changes`
record carrying the serialized old and new values, and rewrites the
column, exactly when the `JSON.stringify` serializations of the current
and new value differ (a deep comparison, but sensitive to object key
order); when the serializations are equal it appends nothing and performs
no update at all. -/
theorem c8_amended (now : Nat) (st : LedgerState) (taskId fieldName : String) (v : JsValue) :
    (jsonStringify (currentValueOf st taskId fieldName) = jsonStringify v →
       updateTaskField now st taskId fieldName v = st)
    ∧ (jsonStringify (currentValueOf st taskId fieldName) ≠ jsonStringify v →
       (updateTaskField now st taskId fieldName v).changes
         = st.changes ++ [⟨taskId, fieldName,
             jsonStringify (currentValueOf st taskId fieldName), jsonStringify v, now⟩]
       ∧ (updateTaskField now st taskId fieldName v).tasks
         = setColumn st.tasks taskId fieldName v now) := by
  constructor
  · intro h
    simp [updateTaskField, h]
  · intro h
    constructor <;> simp [updateTaskField, h]

theorem c8_amended_witness :
    (updateTaskField 7 stA ("t1") ("client") (.str ("B"))).changes
      = [⟨("t1"), ("client"), jsonStringify (.str ("A")), jsonStringify (.str ("B")), 7⟩]
    ∧ updateTaskField 7 stB ("t1") ("client") (.str ("B")) = stB := by
  constructor
  · have h := (c8_amended 7 stA ("t1") ("client") (.str ("B"))).2 (by decide)
    rw [h.1]
    rfl
  · exact (c8_amended 7 stB ("t1") ("client") (.str ("B"))).1 (by decide)

/-- C9: calling the sync for a task id with no stored row inserts exactly
one placeholder row keyed by that id — the final table's key list is the
old key list plus that id — whose provenance tag is `manual_` + id, whose
extraction timestamp is the current instant, whose core fields come from
the fetched detail, and whose three structured maps are empty documents. -/
theorem c9_placeholder (now : Nat) (d : TaskDetail) (db : DB) (taskId : String)
    (types : List TypeDef) (ws : String)
    (h : checkTaskExists db taskId = false) :
    (ensureTask now d db taskId).tasks = db.tasks ++ [(taskId, placeholderRow now taskId d)]
    ∧ ((syncTaskCustomFields (some d) types ws now db taskId (fun x => x)).1).tasks.map Prod.fst
        = db.tasks.map Prod.fst ++ [taskId]
    ∧ (placeholderRow now taskId d).airbyte_raw_id = ("manual_") ++ taskId
    ∧ (placeholderRow now taskId d).airbyte_extracted_at = .clock now
    ∧ (placeholderRow now taskId d).name = d.name
    ∧ (placeholderRow now taskId d).text_content = d.text_content
    ∧ (placeholderRow now taskId d).description = d.description
    ∧ (placeholderRow now taskId d).status = sqlBind d.status
    ∧ (placeholderRow now taskId d).date_created = tsParam d.date_created
    ∧ (placeholderRow now taskId d).date_updated = tsParam d.date_updated
    ∧ (placeholderRow now taskId d).creator = toJson (jsOrEmptyObj d.creator)
    ∧ (placeholderRow now taskId d).custom_fields = .obj []
    ∧ (placeholderRow now taskId d).relationships = .obj []
    ∧ (placeholderRow now taskId d).field_values = .obj [] := by
  refine ⟨?_, ?_, rfl, rfl, rfl, rfl, rfl, rfl, rfl, rfl, rfl, rfl, rfl, rfl⟩
  · simp [ensureTask, h, insertPlaceholder]
  · rw [sync_keys]
    simp [ensureTask, h, insertPlaceholder]

theorem c9_placeholder_witness :
    (ensureTask 4 sampleDetail emptyDB ("t7")).tasks
      = emptyDB.tasks ++ [(("t7"), placeholderRow 4 ("t7") sampleDetail)]
    ∧ (placeholderRow 4 ("t7") sampleDetail).airbyte_raw_id = ("manual_") ++ ("t7")
    ∧ (placeholderRow 4 ("t7") sampleDetail).field_values = .obj [] :=
  ⟨(c9_placeholder 4 sampleDetail emptyDB ("t7") [] ("ws") rfl).1,
   (c9_placeholder 4 sampleDetail emptyDB ("t7") [] ("ws") rfl).2.2.1,
   (c9_placeholder 4 sampleDetail emptyDB ("t7") [] ("ws") rfl).2.2.2.2.2.2.2.2.2.2.2.2.1⟩
